import Mathlib

/-!
# Poll-App backend: shallow embedding and verification

This file embeds the Express/Mongoose backend of the Poll-App repository
(`server.js`) in Lean and proves or refutes the specification's claims about
it.  Untyped JSON request values are modelled by `JsVal`; the Mongoose `Poll`
and `Option` documents by the `Poll` and `PollOption` structures; each route
handler by an explicit function on a store modelled as a list of polls.
MongoDB ObjectIds are modelled as naturals (poll ids) and strings (option
ids); `Date` values as integers.
-/

namespace PollApp

/-- An untyped JavaScript/JSON value, as received in a request body. -/
inductive JsVal where
  | str (s : String)
  | num (n : Int)
  | bool (b : Bool)
  | null
  | undef
  | arr (xs : List JsVal)
  | obj (fields : List (String × JsVal))

/-- A poll option (subdocument of `OptionSchema`): `text` plus a `votes`
counter defaulting to 0.  The Mongo `_id` is modelled as a string. -/
structure PollOption where
  id : String
  text : String
  votes : Nat
  deriving DecidableEq, Repr

/-- A poll document (`PollSchema`).  `closesAt` is optional; timestamps are
integers. -/
structure Poll where
  id : Nat
  question : String
  options : List PollOption
  multipleChoice : Bool
  createdAt : Int
  closesAt : Option Int
  deriving DecidableEq, Repr

/-- JavaScript truthiness of a `JsVal` (`!!v` / `v ? _ : _`). -/
def truthy : JsVal → Bool
  | .str s => !(s == "")
  | .num n => n != 0
  | .bool b => b
  | .null => false
  | .undef => false
  | .arr _ => true
  | .obj _ => true

/-- Last-wins field lookup on a JS object (later duplicate keys shadow
earlier ones, as after `JSON.parse`). -/
def getField (fs : List (String × JsVal)) (k : String) : Option JsVal :=
  fs.foldl (fun acc p => if p.1 == k then some p.2 else acc) none

/-- JS `String.prototype.trim`, modelled directly on the character list (the
built-in `String.trim` goes through `Substring` functions that are
definitionally opaque): drop whitespace from both ends. -/
def jsTrim (s : String) : String :=
  String.mk (((s.data.dropWhile Char.isWhitespace).reverse.dropWhile
    Char.isWhitespace).reverse)

instance : DecidableEq (Except Unit String) := fun a b =>
  match a, b with
  | .ok x, .ok y =>
    if h : x = y then isTrue (by rw [h])
    else isFalse (fun hh => h (Except.ok.inj hh))
  | .error x, .error y => isTrue (by cases x; cases y; rfl)
  | .ok _, .error _ => isFalse (fun h => Except.noConfusion h)
  | .error _, .ok _ => isFalse (fun h => Except.noConfusion h)

/-! ## Poll creation (`POST /api/polls`, server.js lines 37-75) -/

/-- Creation-time outcomes: the two validation failures plus the generic 500
produced when the handler body throws (caught by its `try`/`catch`). -/
inductive CreateErr where
  | invalidQuestion
  | insufficientOptions
  | serverError
  deriving DecidableEq, Repr

/-- Line 42: `if (typeof question !== 'string') question = ''`. -/
def coerceQuestion : JsVal → String
  | .str s => s
  | _ => ""

/-- Line 43: `if (!Array.isArray(options)) options = []`. -/
def coerceOptions : JsVal → List JsVal
  | .arr xs => xs
  | _ => []

/-- One step of `options.map(o => (typeof o === 'string' ? o : (o?.text ?? '')))`
followed by `.trim()` being applicable: when the produced value is not a
string (an object option whose `text` field holds a non-nullish non-string),
the subsequent `s.trim()` call throws a `TypeError`, modelled as `.error ()`.
The trim itself is applied later. -/
def normalizeOne : JsVal → Except Unit String
  | .str s => .ok s
  | .obj fs =>
    match getField fs "text" with
    | none => .ok ""
    | some .null => .ok ""
    | some .undef => .ok ""
    | some (.str s) => .ok s
    | some _ => .error ()
  | _ => .ok ""

/-- Lines 46-49: normalize each option, trim, and drop entries that become
empty; propagates the `TypeError` of `normalizeOne` when some produced value
has no `trim` method. -/
def normalizeOptions (opts : List JsVal) : Except Unit (List String) := do
  let raw ← opts.mapM normalizeOne
  pure ((raw.map jsTrim).filter (fun s => s.length > 0))

/-- Builds the created poll's options: `normOptions.map(text => ({ text }))`
with Mongoose defaulting `votes` to 0 and assigning fresh subdocument ids
(opaque distinct strings, modelled from the position index). -/
def mkOptions (norm : List String) : List PollOption :=
  norm.enum.map (fun p =>
    { id := String.mk (List.replicate (p.1 + 1) 'i'), text := p.2, votes := 0 })

/-- The `POST /api/polls` handler (lines 37-75) applied to a raw body.
`pid` is the ObjectId the store assigns, `now` the creation timestamp, and
`closesAt` the already-parsed optional closing date (`Date` parsing of the
raw value is the JS runtime's and out of scope, spec §9). -/
def createPoll (pid : Nat) (now : Int) (question options multipleChoice : JsVal)
    (closesAt : Option Int) : Except CreateErr Poll :=
  let q := coerceQuestion question
  match normalizeOptions (coerceOptions options) with
  | .error _ => .error .serverError
  | .ok norm =>
    if (jsTrim q).length < 5 then .error .invalidQuestion
    else if norm.length < 2 then .error .insufficientOptions
    else .ok { id := pid, question := jsTrim q, options := mkOptions norm,
               multipleChoice := truthy multipleChoice,
               createdAt := now, closesAt := closesAt }

/-- Modelled from the spec's words (§4.1 / claim C6), for comparison with the
code's `normalizeOne`: "if it is a string use it directly, else extract a
`text` field, defaulting to empty string if absent", reading any non-string
`text` value as the empty-string default.  Total by construction. -/
def specNormalizeOne : JsVal → String
  | .str s => s
  | .obj fs =>
    match getField fs "text" with
    | some (.str s) => s
    | _ => ""
  | _ => ""

/-- The spec's normalization pipeline (§4.1): map, trim, discard empties. -/
def specNormOptions (opts : List JsVal) : List String :=
  ((opts.map specNormalizeOne).map jsTrim).filter (fun s => s.length > 0)

/-! ## Voting (`PATCH /api/polls/:id/vote`, server.js lines 91-111) -/

/-- Vote/read-time outcomes. -/
inductive VoteErr where
  | invalidRequest
  | notFound
  | pollClosed
  | cardinalityViolation
  deriving DecidableEq, Repr

/-- Line 93: `!Array.isArray(optionIds) || optionIds.length < 1`. -/
def requestMalformed : JsVal → Bool
  | .arr ids => ids.length < 1
  | _ => true

/-- Line 98: `poll.closesAt && new Date() > poll.closesAt` — a poll is closed
exactly when `closesAt` is set and strictly in the past. -/
def isClosed (now : Int) (p : Poll) : Bool :=
  match p.closesAt with
  | some t => now > t
  | none => false

/-- Line 107: `optSet.has(String(o._id))` — the `Set` built from the request
array contains the option's id string.  `Set.has` uses SameValueZero, so only
string entries of the request can match the id string. -/
def idRequested (ids : List JsVal) (i : String) : Bool :=
  ids.any (fun v => match v with | .str s => s == i | _ => false)

/-- Lines 105-108 for one option: increment `votes` when the option's id is
in the requested set, otherwise leave it as is. -/
def bumpOption (ids : List JsVal) (o : PollOption) : PollOption :=
  { o with votes := if idRequested ids o.id then o.votes + 1 else o.votes }

/-- Lines 104-108: rebuild the options array, bumping the selected ones. -/
def applyVote (ids : List JsVal) (p : Poll) : Poll :=
  { p with options := p.options.map (bumpOption ids) }

/-- The vote checks and update applied to a loaded poll (lines 93, 98-108),
in the source's order: malformed request, closed poll, cardinality, then the
increment. -/
def vote (now : Int) (p : Poll) (optionIds : JsVal) : Except VoteErr Poll :=
  match optionIds with
  | .arr ids =>
    if ids.length < 1 then .error .invalidRequest
    else if isClosed now p then .error .pollClosed
    else if !p.multipleChoice && ids.length > 1 then .error .cardinalityViolation
    else .ok (applyVote ids p)
  | _ => .error .invalidRequest

/-- Vote count of the option with identifier `i` in `p` (first match). -/
def votesOf (p : Poll) (i : String) : Option Nat :=
  (p.options.find? (fun o => o.id == i)).map (fun o => o.votes)

/-! ## The store-level operations (routes acting on the collection) -/

/-- The whole `PATCH /api/polls/:id/vote` handler on the store: request-shape
check, `findById`, the per-poll checks, then `poll.save()` (replace the
document with that `_id`).  The store is returned unchanged on every
rejection. -/
def voteOp (now : Int) (pid : Nat) (optionIds : JsVal) (store : List Poll) :
    Except VoteErr Poll × List Poll :=
  if requestMalformed optionIds then (.error .invalidRequest, store)
  else
    match store.find? (fun p => p.id == pid) with
    | none => (.error .notFound, store)
    | some p =>
      match vote now p optionIds with
      | .error e => (.error e, store)
      | .ok p2 => (.ok p2, store.map (fun q => if q.id == pid then p2 else q))

/-- The `POST /api/polls` handler on the store: on success the created poll
is appended; the fresh ObjectId is modelled by the store size. -/
def createOp (now : Int) (question options multipleChoice : JsVal)
    (closesAt : Option Int) (store : List Poll) :
    Except CreateErr Poll × List Poll :=
  match createPoll store.length now question options multipleChoice closesAt with
  | .error e => (.error e, store)
  | .ok p => (.ok p, store ++ [p])

/-- The `GET /api/polls/:id` handler: read-only. -/
def getOp (pid : Nat) (store : List Poll) : Except VoteErr Poll × List Poll :=
  match store.find? (fun p => p.id == pid) with
  | none => (.error .notFound, store)
  | some p => (.ok p, store)

/-! ## Listing (`GET /api/polls`, server.js lines 78-83)

The handler passes the trimmed query string to MongoDB as
`{ question: { $regex: q, $options: 'i' } }` and sorts by `createdAt`
descending.  The `$regex` semantics is the store's; it is modelled here for
the fragment consisting of literal characters and the metacharacter `.`
(match any character), with the `i` flag as lowercase folding, and an
unanchored search — enough for every pattern considered below. -/

/-- A token of the modelled regex fragment: a literal character or `.`. -/
inductive RTok where
  | lit (c : Char)
  | dot
  deriving DecidableEq, Repr

/-- Reads a pattern string in the modelled fragment: `.` is the any-character
metacharacter, everything else a literal. -/
def patToks (s : String) : List RTok :=
  s.toList.map (fun c => if c == '.' then RTok.dot else RTok.lit c)

/-- Case-fold the literal characters of a token (the `i` flag). -/
def lowerTok : RTok → RTok
  | .lit c => .lit c.toLower
  | .dot => .dot

/-- Does one token match one character? -/
def tokMatch : RTok → Char → Bool
  | .lit c, d => c == d
  | .dot, _ => true

/-- Does the token list match a prefix of the character list? -/
def matchHere : List RTok → List Char → Bool
  | [], _ => true
  | _ :: _, [] => false
  | t :: ts, c :: cs => tokMatch t c && matchHere ts cs

/-- Unanchored search: does the token list match starting at some position? -/
def searchToks (ts : List RTok) : List Char → Bool
  | [] => matchHere ts []
  | c :: cs => matchHere ts (c :: cs) || searchToks ts cs

/-- The characters of `s`, lowercased. -/
def lowerChars (s : String) : List Char :=
  s.toList.map Char.toLower

/-- The store query `$regex: pat, $options: 'i'` applied to `hay`, in the modelled fragment. -/
def regexSearchI (pat hay : String) : Bool :=
  searchToks ((patToks pat).map lowerTok) (lowerChars hay)

/-- The claim's reading of the filter: `pat` occurs in `hay` as a literal
substring, case-insensitively. -/
def containsCI (hay pat : String) : Prop :=
  lowerChars pat <:+: lowerChars hay

instance (hay pat : String) : Decidable (containsCI hay pat) :=
  List.decidableInfix _ _

/-- Predicate: `pat` contains none of the PCRE metacharacters, so `$regex` treats every
character literally. -/
def noRegexMeta (pat : String) : Bool :=
  pat.toList.all (fun c =>
    !(c == '.' || c == '^' || c == '$' || c == '*' || c == '+' || c == '?' ||
      c == '(' || c == ')' || c == '[' || c == ']' || c == '\x7b' ||
      c == '\x7d' || c == '|' || c == '\\'))

/-- The `createdAt`-descending order used by the query sort. -/
def laterFirst (a b : Poll) : Prop :=
  b.createdAt ≤ a.createdAt

instance : DecidableRel laterFirst := fun a b =>
  inferInstanceAs (Decidable (b.createdAt ≤ a.createdAt))

instance : IsTotal Poll laterFirst :=
  ⟨fun a b => le_total b.createdAt a.createdAt⟩

instance : IsTrans Poll laterFirst :=
  ⟨fun _ _ _ h1 h2 => le_trans h2 h1⟩

/-- The trimmed query string: `req.query.q?.trim()`, absent read as empty. -/
def listQuery (q : Option String) : String :=
  match q with
  | some s => jsTrim s
  | none => ""

/-- The polls the `GET /api/polls` handler responds with: filter by the
`$regex` when the trimmed query is truthy (non-empty), newest first. -/
def listResult (q : Option String) (store : List Poll) : List Poll :=
  if listQuery q == "" then List.insertionSort laterFirst store
  else
    List.insertionSort laterFirst
      (store.filter (fun p => regexSearchI (listQuery q) p.question))

/-- The `GET /api/polls` handler: responds with `listResult`, read-only on
the store. -/
def listOp (q : Option String) (store : List Poll) : List Poll × List Poll :=
  (listResult q store, store)

/-! ## Interleaved executions of the vote handler (spec §5)

The handler is a read-modify-write: `findById` (read), the in-memory
increment, `save` (write).  Two concurrent requests on the same poll are
modelled by an explicit schedule of read and write events over a shared
stored poll, each transaction keeping its own snapshot. -/

/-- Shared state for two in-flight vote transactions on one poll: the stored
document and each transaction's snapshot (after its `findById`). -/
structure RmwState where
  store : Poll
  snap1 : Option Poll
  snap2 : Option Poll

/-- Events of the two transactions: each reads then writes. -/
inductive RmwEv where
  | read1
  | read2
  | write1
  | write2

/-- One event: a read snapshots the stored poll; a write stores the poll the
transaction computed from its snapshot (a no-op if it never read). -/
def rmwStep (ids : List JsVal) (s : RmwState) : RmwEv → RmwState
  | .read1 => { s with snap1 := some s.store }
  | .read2 => { s with snap2 := some s.store }
  | .write1 =>
    match s.snap1 with
    | some p => { s with store := applyVote ids p }
    | none => s
  | .write2 =>
    match s.snap2 with
    | some p => { s with store := applyVote ids p }
    | none => s

/-- Run a schedule of events from a stored poll `p`; both transactions carry
the same request `ids`.  Returns the final stored poll. -/
def runSched (ids : List JsVal) (p : Poll) (sched : List RmwEv) : Poll :=
  (sched.foldl (rmwStep ids) { store := p, snap1 := none, snap2 := none }).store

/-- Modelled from the spec: §5's required race-free reimplementation of the
vote path — an atomic per-option increment primitive at the store level,
keyed by the option id, absent from `server.js`.  One vote submission
selecting the option is one atomic application. -/
def atomicIncrOption (i : String) (p : Poll) : Poll :=
  { p with options :=
      p.options.map (fun o =>
        if o.id == i then { o with votes := o.votes + 1 } else o) }

/-! ## Basic lemmas about the vote update -/

theorem bumpOption_id (ids : List JsVal) (o : PollOption) :
    (bumpOption ids o).id = o.id := rfl

theorem isClosed_applyVote (now : Int) (ids : List JsVal) (p : Poll) :
    isClosed now (applyVote ids p) = isClosed now p := rfl

theorem find?_map_of_id_preserving {f : PollOption → PollOption}
    (hf : ∀ o, (f o).id = o.id) (l : List PollOption) (i : String) :
    (l.map f).find? (fun o => o.id == i) =
      (l.find? (fun o => o.id == i)).map f := by
  have hp : ((fun o : PollOption => o.id == i) ∘ f) =
      (fun o : PollOption => o.id == i) := by
    funext o
    simp [Function.comp, hf o]
  rw [List.find?_map, hp]

theorem votesOf_applyVote (ids : List JsVal) (p : Poll) (i : String) :
    votesOf (applyVote ids p) i =
      (votesOf p i).map (fun v => if idRequested ids i then v + 1 else v) := by
  simp only [votesOf]
  rw [show (applyVote ids p).options = p.options.map (bumpOption ids) from rfl,
    find?_map_of_id_preserving (f := bumpOption ids) (fun o => rfl)]
  cases h : p.options.find? (fun o => o.id == i) with
  | none => rfl
  | some o =>
    have hb : (o.id == i) = true :=
      List.find?_some (p := fun o : PollOption => o.id == i) h
    have hid : o.id = i := eq_of_beq hb
    simp [bumpOption, hid]

theorem votesOf_atomicIncrOption (i : String) (p : Poll) :
    votesOf (atomicIncrOption i p) i = (votesOf p i).map (fun v => v + 1) := by
  simp only [votesOf]
  rw [show (atomicIncrOption i p).options = p.options.map (fun o =>
      if o.id == i then { o with votes := o.votes + 1 } else o) from rfl,
    find?_map_of_id_preserving (f := fun o =>
      if o.id == i then { o with votes := o.votes + 1 } else o)
      (fun o => by by_cases h : (o.id == i) = true <;> simp [h])]
  cases h : p.options.find? (fun o => o.id == i) with
  | none => rfl
  | some o =>
    have hid : (o.id == i) = true :=
      List.find?_some (p := fun o : PollOption => o.id == i) h
    simp [hid, eq_of_beq hid]

theorem vote_ok_of_valid (now : Int) (p : Poll) (ids : List JsVal)
    (hne : 1 ≤ ids.length) (hopen : isClosed now p = false)
    (hcard : p.multipleChoice = true ∨ ids.length ≤ 1) :
    vote now p (.arr ids) = .ok (applyVote ids p) := by
  unfold vote
  have h1 : ¬ ids.length < 1 := Nat.not_lt.mpr hne
  have h3 : (!p.multipleChoice && decide (ids.length > 1)) = false := by
    cases hcard with
    | inl h => simp [h]
    | inr h => simp [Nat.not_lt.mpr h]
  simp [h1, hopen, h3]

/-! ## C1 — a valid vote on an open poll increments exactly the selected
options -/

/-- C1.  For every loaded open poll and every valid vote request (non-empty
array of identifiers respecting the cardinality rule), the vote operation
succeeds, increments by exactly 1 the `votes` of each option whose id occurs
in the requested set, leaves every option not referenced completely
unchanged, and a request whose ids match none of the poll's options still
succeeds and changes no counter. -/
theorem vote_open_valid_increments_selected (now : Int) (p : Poll)
    (ids : List JsVal) (hne : 1 ≤ ids.length) (hopen : isClosed now p = false)
    (hcard : p.multipleChoice = true ∨ ids.length ≤ 1) :
    vote now p (.arr ids) = .ok (applyVote ids p) ∧
    (applyVote ids p).options = p.options.map (bumpOption ids) ∧
    (∀ o ∈ p.options, idRequested ids o.id = true →
      (bumpOption ids o).votes = o.votes + 1 ∧ (bumpOption ids o).id = o.id ∧
      (bumpOption ids o).text = o.text) ∧
    (∀ o ∈ p.options, idRequested ids o.id = false → bumpOption ids o = o) ∧
    ((∀ o ∈ p.options, idRequested ids o.id = false) → applyVote ids p = p) := by
  refine ⟨vote_ok_of_valid now p ids hne hopen hcard, rfl, ?_, ?_, ?_⟩
  · intro o _ h
    exact ⟨by simp [bumpOption, h], rfl, rfl⟩
  · intro o _ h
    simp [bumpOption, h]
  · intro h
    have : p.options.map (bumpOption ids) = p.options := by
      have := List.map_congr_left (l := p.options)
        (f := bumpOption ids) (g := id) (fun o ho => by simp [bumpOption, h o ho])
      simpa using this
    show { p with options := p.options.map (bumpOption ids) } = p
    rw [this]

/-- Witness for C1 at a concrete poll and request. -/
theorem vote_open_valid_increments_selected_witness :
    vote 50
      { id := 0, question := "Favorite JS framework?",
        options := [{ id := "a", text := "Angular", votes := 3 },
                    { id := "b", text := "React", votes := 5 }],
        multipleChoice := false, createdAt := 10, closesAt := some 100 }
      (.arr [.str "a"]) =
    .ok (applyVote [.str "a"]
      { id := 0, question := "Favorite JS framework?",
        options := [{ id := "a", text := "Angular", votes := 3 },
                    { id := "b", text := "React", votes := 5 }],
        multipleChoice := false, createdAt := 10, closesAt := some 100 }) :=
  (vote_open_valid_increments_selected 50
    { id := 0, question := "Favorite JS framework?",
      options := [{ id := "a", text := "Angular", votes := 3 },
                  { id := "b", text := "React", votes := 5 }],
      multipleChoice := false, createdAt := 10, closesAt := some 100 }
    [.str "a"] (by decide) (by decide) (Or.inr (by decide))).1

/-! ## C4 — the vote checks are applied in a fixed order -/

/-- C4.  The Vote Processor's checks run in the source's fixed order:
a malformed selection is rejected as `InvalidRequest` whatever the state of
the poll (in particular also when the poll is closed); a well-formed request
on a closed poll is rejected as `PollClosed` whatever its cardinality; and
`CardinalityViolation` is reported only once the first two checks pass. -/
theorem vote_checks_in_order (now : Int) (p : Poll) (optionIds : JsVal) :
    (requestMalformed optionIds = true →
      vote now p optionIds = .error .invalidRequest) ∧
    (∀ ids, optionIds = .arr ids → 1 ≤ ids.length → isClosed now p = true →
      vote now p optionIds = .error .pollClosed) ∧
    (∀ ids, optionIds = .arr ids → 1 ≤ ids.length → isClosed now p = false →
      p.multipleChoice = false → 1 < ids.length →
      vote now p optionIds = .error .cardinalityViolation) := by
  refine ⟨?_, ?_, ?_⟩
  · intro h
    cases optionIds
    case arr ids =>
      have hlt : ids.length < 1 := by simpa [requestMalformed] using h
      simp [vote, hlt]
    all_goals rfl
  · rintro ids rfl h1 hc
    simp [vote, Nat.not_lt.mpr h1, hc]
  · rintro ids rfl h1 hc hm hlen
    simp [vote, Nat.not_lt.mpr h1, hc, hm, hlen]

/-- Witness for C4: a request that is both malformed (not an array) and
aimed at a closed poll is rejected as `InvalidRequest`. -/
theorem vote_checks_in_order_witness :
    vote 200
      { id := 0, question := "Favorite JS framework?",
        options := [{ id := "a", text := "Angular", votes := 3 },
                    { id := "b", text := "React", votes := 5 }],
        multipleChoice := false, createdAt := 10, closesAt := some 100 }
      (.str "a") = .error .invalidRequest :=
  (vote_checks_in_order 200
    { id := 0, question := "Favorite JS framework?",
      options := [{ id := "a", text := "Angular", votes := 3 },
                  { id := "b", text := "React", votes := 5 }],
      multipleChoice := false, createdAt := 10, closesAt := some 100 }
    (.str "a")).1 (by decide)

/-! ## C10 — duplicate identifiers: set semantics for the increment, array
semantics for the cardinality check -/

theorem idRequested_replicate (n : Nat) (hn : 1 ≤ n) (k i : String) :
    idRequested (List.replicate n (.str k)) i = (k == i) := by
  simp [idRequested, List.any_replicate, Nat.one_le_iff_ne_zero.mp hn]

/-- C10.  A request listing the same identifier `k` a total of `n ≥ 1` times
behaves as the set `{k}` for the increment: on a multiple-choice open poll it
succeeds and bumps the option with id `k` by exactly 1 (options with other
ids untouched); on a single-choice poll any such request with `n > 1` is
rejected as `CardinalityViolation` because the cardinality check uses the
raw array length. -/
theorem vote_duplicate_ids_set_semantics (now : Int) (p : Poll) (k : String)
    (n : Nat) (hn : 1 ≤ n) (hopen : isClosed now p = false) :
    (p.multipleChoice = true →
      vote now p (.arr (List.replicate n (.str k))) =
        .ok (applyVote (List.replicate n (.str k)) p) ∧
      votesOf (applyVote (List.replicate n (.str k)) p) k =
        (votesOf p k).map (fun v => v + 1) ∧
      (∀ o ∈ p.options, o.id ≠ k →
        bumpOption (List.replicate n (.str k)) o = o)) ∧
    (p.multipleChoice = false → 1 < n →
      vote now p (.arr (List.replicate n (.str k))) =
        .error .cardinalityViolation) := by
  constructor
  · intro hmc
    refine ⟨vote_ok_of_valid now p _ (by simpa using hn) hopen (Or.inl hmc),
      ?_, ?_⟩
    · rw [votesOf_applyVote]
      simp [idRequested_replicate n hn]
    · intro o _ ho
      have hr : idRequested (List.replicate n (.str k)) o.id = (k == o.id) :=
        idRequested_replicate n hn k o.id
      have hne : k ≠ o.id := fun h => ho h.symm
      simp [bumpOption, hr, hne]
  · intro hmc hlen
    have h1 : ¬ n < 1 := by omega
    simp [vote, hopen, hmc, hlen, h1]

/-- Witness for C10 on a concrete multiple-choice poll: voting
`["a","a","a"]` succeeds as a single increment of option `"a"`. -/
theorem vote_duplicate_ids_set_semantics_witness :
    vote 50
      { id := 0, question := "Pick all you like",
        options := [{ id := "a", text := "Angular", votes := 3 },
                    { id := "b", text := "React", votes := 5 }],
        multipleChoice := true, createdAt := 10, closesAt := some 100 }
      (.arr (List.replicate 3 (.str "a"))) =
    .ok (applyVote (List.replicate 3 (.str "a"))
      { id := 0, question := "Pick all you like",
        options := [{ id := "a", text := "Angular", votes := 3 },
                    { id := "b", text := "React", votes := 5 }],
        multipleChoice := true, createdAt := 10, closesAt := some 100 }) :=
  ((vote_duplicate_ids_set_semantics 50
    { id := 0, question := "Pick all you like",
      options := [{ id := "a", text := "Angular", votes := 3 },
                  { id := "b", text := "React", votes := 5 }],
      multipleChoice := true, createdAt := 10, closesAt := some 100 }
    "a" 3 (by decide) (by decide)).1 rfl).1

/-! ## C3 — rejections are atomic: the store is untouched -/

/-- C3.  When the vote operation rejects a request on a loaded poll with
`PollClosed` (closesAt set and in the past) or `CardinalityViolation`
(single-choice poll, more than one identifier), the handler returns exactly
that error and the stored collection — hence every option's votes counter —
is left exactly as it was. -/
theorem vote_rejection_leaves_store_unchanged (now : Int) (pid : Nat)
    (store : List Poll) (ids : List JsVal) (p : Poll) (hne : 1 ≤ ids.length)
    (hfound : store.find? (fun q => q.id == pid) = some p) :
    (isClosed now p = true →
      voteOp now pid (.arr ids) store = (.error .pollClosed, store)) ∧
    (isClosed now p = false → p.multipleChoice = false → 1 < ids.length →
      voteOp now pid (.arr ids) store = (.error .cardinalityViolation, store)) := by
  have hmal : requestMalformed (.arr ids) = false := by
    simp [requestMalformed, Nat.not_lt.mpr hne]
  have h1 : ¬ ids.length < 1 := Nat.not_lt.mpr hne
  constructor
  · intro hc
    simp [voteOp, hmal, hfound, vote, h1, hc]
  · intro hc hm hlen
    simp [voteOp, hmal, hfound, vote, h1, hc, hm, hlen]

/-- Witness for C3: voting on a concrete closed poll returns `PollClosed`
and the one-poll store unchanged. -/
theorem vote_rejection_leaves_store_unchanged_witness :
    voteOp 150 0 (.arr [.str "a"])
      [{ id := 0, question := "Favorite JS framework?",
         options := [{ id := "a", text := "Angular", votes := 3 },
                     { id := "b", text := "React", votes := 5 }],
         multipleChoice := false, createdAt := 10, closesAt := some 100 }] =
    (.error .pollClosed,
      [{ id := 0, question := "Favorite JS framework?",
         options := [{ id := "a", text := "Angular", votes := 3 },
                     { id := "b", text := "React", votes := 5 }],
         multipleChoice := false, createdAt := 10, closesAt := some 100 }]) :=
  (vote_rejection_leaves_store_unchanged 150 0
    [{ id := 0, question := "Favorite JS framework?",
       options := [{ id := "a", text := "Angular", votes := 3 },
                   { id := "b", text := "React", votes := 5 }],
       multipleChoice := false, createdAt := 10, closesAt := some 100 }]
    [.str "a"]
    { id := 0, question := "Favorite JS framework?",
      options := [{ id := "a", text := "Angular", votes := 3 },
                  { id := "b", text := "React", votes := 5 }],
      multipleChoice := false, createdAt := 10, closesAt := some 100 }
    (by decide) (by decide)).1 (by decide)

/-! ## C5 — N sequential successful votes add exactly N -/

/-- Sequential composition of `n` vote submissions (each the full handler
logic on the poll returned by the previous one). -/
def voteN (now : Int) (optionIds : JsVal) : Nat → Poll → Except VoteErr Poll
  | 0, p => .ok p
  | n + 1, p =>
    match vote now p optionIds with
    | .error e => .error e
    | .ok p2 => voteN now optionIds n p2

/-- C5.  For every poll and selected option `i`, sequentially composing `n`
successful vote submissions each selecting `i` succeeds and yields a poll in
which `i`'s votes equal the prior value plus exactly `n`. -/
theorem voteN_adds_exactly_n (now : Int) (ids : List JsVal) (n : Nat)
    (p : Poll) (i : String) (v : Nat) (hne : 1 ≤ ids.length)
    (hopen : isClosed now p = false)
    (hcard : p.multipleChoice = true ∨ ids.length ≤ 1)
    (hreq : idRequested ids i = true) (hv : votesOf p i = some v) :
    ∃ p2, voteN now (.arr ids) n p = .ok p2 ∧ votesOf p2 i = some (v + n) := by
  induction n generalizing p v with
  | zero => exact ⟨p, rfl, by simpa using hv⟩
  | succ m ih =>
    have hstep : vote now p (.arr ids) = .ok (applyVote ids p) :=
      vote_ok_of_valid now p ids hne hopen hcard
    have hopen2 : isClosed now (applyVote ids p) = false := by
      rw [isClosed_applyVote]
      exact hopen
    have hcard2 : (applyVote ids p).multipleChoice = true ∨ ids.length ≤ 1 :=
      hcard
    have hv2 : votesOf (applyVote ids p) i = some (v + 1) := by
      rw [votesOf_applyVote]
      simp [hreq, hv]
    obtain ⟨p2, h1, h2⟩ := ih (applyVote ids p) (v + 1) hopen2 hcard2 hv2
    refine ⟨p2, ?_, ?_⟩
    · simp [voteN, hstep, h1]
    · rw [h2]
      congr 1
      omega

/-- Witness for C5: three sequential votes for option `"a"` take its counter
from 3 to 6. -/
theorem voteN_adds_exactly_n_witness :
    ∃ p2, voteN 50 (.arr [.str "a"]) 3
      { id := 0, question := "Favorite JS framework?",
        options := [{ id := "a", text := "Angular", votes := 3 },
                    { id := "b", text := "React", votes := 5 }],
        multipleChoice := false, createdAt := 10, closesAt := some 100 } =
      .ok p2 ∧ votesOf p2 "a" = some (3 + 3) :=
  voteN_adds_exactly_n 50 [.str "a"] 3
    { id := 0, question := "Favorite JS framework?",
      options := [{ id := "a", text := "Angular", votes := 3 },
                  { id := "b", text := "React", votes := 5 }],
      multipleChoice := false, createdAt := 10, closesAt := some 100 }
    "a" 3 (by decide) (by decide) (Or.inr (by decide)) (by decide) (by decide)

/-! ## C2 — lost updates: interleaved read-modify-write versus an atomic
increment -/

/-- C2.  Submissions each selecting option `i`: (a) under the spec-mandated
race-free reimplementation (atomic per-option increments), any execution of
`n` submissions yields exactly prior + n; (b) the original read-modify-write
handler, run as two transactions under the interleaving read₁ read₂ write₁
write₂, loses an update and yields prior + 1, whereas (c) the serialized
interleaving read₁ write₁ read₂ write₂ yields prior + 2. -/
theorem concurrent_votes_atomic_vs_rmw (ids : List JsVal) (p : Poll)
    (i : String) (n v : Nat) (hreq : idRequested ids i = true)
    (hv : votesOf p i = some v) :
    votesOf ((atomicIncrOption i)^[n] p) i = some (v + n) ∧
    votesOf (runSched ids p [.read1, .read2, .write1, .write2]) i =
      some (v + 1) ∧
    votesOf (runSched ids p [.read1, .write1, .read2, .write2]) i =
      some (v + 2) := by
  refine ⟨?_, ?_, ?_⟩
  · induction n with
    | zero => simpa using hv
    | succ m ih =>
      rw [Function.iterate_succ_apply', votesOf_atomicIncrOption]
      rw [ih]
      rfl
  · have hrun : runSched ids p [.read1, .read2, .write1, .write2] =
        applyVote ids p := rfl
    rw [hrun, votesOf_applyVote]
    simp [hreq, hv]
  · have hrun : runSched ids p [.read1, .write1, .read2, .write2] =
        applyVote ids (applyVote ids p) := rfl
    rw [hrun, votesOf_applyVote, votesOf_applyVote]
    simp [hreq, hv]

/-- Witness for C2 on a concrete poll: two atomic submissions give +2 while
the racy schedule gives +1. -/
theorem concurrent_votes_atomic_vs_rmw_witness :
    votesOf ((atomicIncrOption "a")^[2]
      { id := 0, question := "Favorite JS framework?",
        options := [{ id := "a", text := "Angular", votes := 3 },
                    { id := "b", text := "React", votes := 5 }],
        multipleChoice := false, createdAt := 10, closesAt := some 100 }) "a" =
      some (3 + 2) :=
  (concurrent_votes_atomic_vs_rmw [.str "a"]
    { id := 0, question := "Favorite JS framework?",
      options := [{ id := "a", text := "Angular", votes := 3 },
                  { id := "b", text := "React", votes := 5 }],
      multipleChoice := false, createdAt := 10, closesAt := some 100 }
    "a" 2 3 (by decide) (by decide)).1

/-! ## C6 and C7 — the creation validator -/

theorem normalizeOne_ok_spec (o : JsVal) (s : String)
    (h : normalizeOne o = .ok s) : specNormalizeOne o = s := by
  cases o with
  | obj fs =>
    simp only [normalizeOne] at h
    simp only [specNormalizeOne]
    cases hg : getField fs "text" with
    | none =>
      rw [hg] at h
      exact Except.ok.inj h
    | some v =>
      rw [hg] at h
      cases v
      case str t => exact Except.ok.inj h
      case null => exact Except.ok.inj h
      case undef => exact Except.ok.inj h
      all_goals exact Except.noConfusion h
  | str t => exact Except.ok.inj h
  | num n => exact Except.ok.inj h
  | bool b => exact Except.ok.inj h
  | null => exact Except.ok.inj h
  | undef => exact Except.ok.inj h
  | arr xs => exact Except.ok.inj h

theorem mapM_normalizeOne_benign (opts : List JsVal)
    (h : ∀ o ∈ opts, normalizeOne o ≠ .error ()) :
    opts.mapM normalizeOne = .ok (opts.map specNormalizeOne) := by
  induction opts with
  | nil => rfl
  | cons o rest ih =>
    have ho := h o (by simp)
    obtain ⟨s, hs⟩ : ∃ s, normalizeOne o = .ok s := by
      cases hno : normalizeOne o with
      | ok s => exact ⟨s, rfl⟩
      | error e =>
        cases e
        exact absurd hno ho
    have hspec := normalizeOne_ok_spec o s hs
    subst hspec
    rw [List.mapM_cons, hs, ih (fun o2 ho2 => h o2 (by simp [ho2]))]
    rfl

theorem normalizeOptions_benign (opts : List JsVal)
    (h : ∀ o ∈ opts, normalizeOne o ≠ .error ()) :
    normalizeOptions opts = .ok (specNormOptions opts) := by
  unfold normalizeOptions specNormOptions
  rw [mapM_normalizeOne_benign opts h]
  rfl

theorem mkOptions_votes (norm : List String) :
    ∀ o ∈ mkOptions norm, o.votes = 0 := by
  intro o ho
  simp only [mkOptions, List.mem_map] at ho
  obtain ⟨p, _, rfl⟩ := ho
  rfl

theorem mkOptions_length (norm : List String) :
    (mkOptions norm).length = norm.length := by
  simp [mkOptions]

/-- C6 (amended).  For every raw creation input in which no option entry is
an object whose `text` field holds a non-nullish non-string value (those make
the handler throw), creation succeeds exactly when the coerced, trimmed
question has length at least 5 and at least 2 non-empty normalized options
remain (in the spec's sense of normalization); the question-length check
takes precedence, so `InvalidQuestion` is reported whenever the question is
too short, in particular when both checks fail; and on success every created
option has `votes = 0`. -/
theorem create_succeeds_iff_spec_conditions (pid : Nat) (now : Int)
    (question options multipleChoice : JsVal) (closesAt : Option Int)
    (hbenign : ∀ o ∈ coerceOptions options, normalizeOne o ≠ .error ()) :
    ((∃ p, createPoll pid now question options multipleChoice closesAt = .ok p) ↔
      (5 ≤ (jsTrim (coerceQuestion question)).length ∧
        2 ≤ (specNormOptions (coerceOptions options)).length)) ∧
    ((jsTrim (coerceQuestion question)).length < 5 →
      createPoll pid now question options multipleChoice closesAt =
        .error .invalidQuestion) ∧
    (∀ p, createPoll pid now question options multipleChoice closesAt = .ok p →
      ∀ o ∈ p.options, o.votes = 0) := by
  have hno : normalizeOptions (coerceOptions options) =
      .ok (specNormOptions (coerceOptions options)) :=
    normalizeOptions_benign _ hbenign
  refine ⟨⟨?_, ?_⟩, ?_, ?_⟩
  · rintro ⟨p, hp⟩
    simp only [createPoll, hno] at hp
    by_cases h5 : (jsTrim (coerceQuestion question)).length < 5
    · simp [h5] at hp
    · by_cases h2 : (specNormOptions (coerceOptions options)).length < 2
      · simp [h5, h2] at hp
      · exact ⟨Nat.not_lt.mp h5, Nat.not_lt.mp h2⟩
  · rintro ⟨h5, h2⟩
    refine ⟨{ id := pid, question := jsTrim (coerceQuestion question),
              options := mkOptions (specNormOptions (coerceOptions options)),
              multipleChoice := truthy multipleChoice,
              createdAt := now, closesAt := closesAt }, ?_⟩
    simp [createPoll, hno, Nat.not_lt.mpr h5, Nat.not_lt.mpr h2]
  · intro h5
    simp [createPoll, hno, h5]
  · intro p hp o ho
    simp only [createPoll, hno] at hp
    by_cases h5 : (jsTrim (coerceQuestion question)).length < 5
    · simp [h5] at hp
    · by_cases h2 : (specNormOptions (coerceOptions options)).length < 2
      · simp [h5, h2] at hp
      · simp only [h5, h2, if_neg, ite_false] at hp
        have hp2 : p.options = mkOptions (specNormOptions (coerceOptions options)) := by
          cases hp
          rfl
        rw [hp2] at ho
        exact mkOptions_votes _ o ho

/-- Witness for C6 (amended) at a concrete benign input. -/
theorem create_succeeds_iff_spec_conditions_witness :
    (∃ p, createPoll 7 0 (.str "Hello?") (.arr [.str "A", .str "B"])
        .undef none = .ok p) ↔
      (5 ≤ (jsTrim (coerceQuestion (.str "Hello?"))).length ∧
        2 ≤ (specNormOptions (coerceOptions
          (.arr [.str "A", .str "B"]))).length) :=
  (create_succeeds_iff_spec_conditions 7 0 (.str "Hello?")
    (.arr [.str "A", .str "B"]) .undef none (by decide)).1

/-- Counterexample to C6 as stated: an input meeting the claim's success
condition (question of length ≥ 5, two non-empty options under the claimed
normalization) on which creation nevertheless fails — the option object with
a numeric `text` makes the handler throw, yielding the 500 `serverError`. -/
theorem create_claimed_condition_insufficient :
    createPoll 0 0 (.str "Valid question?")
        (.arr [.obj [("text", .num 42)], .str "A", .str "B"]) .undef none =
      .error .serverError ∧
    5 ≤ (jsTrim (coerceQuestion (.str "Valid question?"))).length ∧
    2 ≤ (specNormOptions (coerceOptions
        (.arr [.obj [("text", .num 42)], .str "A", .str "B"]))).length :=
  ⟨rfl, by decide, by decide⟩

/-- C7 (amended).  On every raw creation input in which no option entry is an
object with a non-nullish non-string `text` field, the validator is total in
the spec's sense: the outcome is a created poll, `InvalidQuestion`, or
`InsufficientOptions` — never anything else. -/
theorem create_total_on_benign_inputs (pid : Nat) (now : Int)
    (question options multipleChoice : JsVal) (closesAt : Option Int)
    (hbenign : ∀ o ∈ coerceOptions options, normalizeOne o ≠ .error ()) :
    (∃ p, createPoll pid now question options multipleChoice closesAt = .ok p) ∨
    createPoll pid now question options multipleChoice closesAt =
      .error .invalidQuestion ∨
    createPoll pid now question options multipleChoice closesAt =
      .error .insufficientOptions := by
  have hno : normalizeOptions (coerceOptions options) =
      .ok (specNormOptions (coerceOptions options)) :=
    normalizeOptions_benign _ hbenign
  by_cases h5 : (jsTrim (coerceQuestion question)).length < 5
  · right
    left
    simp [createPoll, hno, h5]
  · by_cases h2 : (specNormOptions (coerceOptions options)).length < 2
    · right
      right
      simp [createPoll, hno, h5, h2]
    · left
      refine ⟨{ id := pid, question := jsTrim (coerceQuestion question),
                options := mkOptions (specNormOptions (coerceOptions options)),
                multipleChoice := truthy multipleChoice,
                createdAt := now, closesAt := closesAt }, ?_⟩
      simp [createPoll, hno, h5, h2]

/-- Witness for C7 (amended) at a concrete benign input made of assorted
shapes (number, object without text, string options). -/
theorem create_total_on_benign_inputs_witness :
    (∃ p, createPoll 1 5 (.num 3)
        (.arr [.num 7, .obj [("label", .str "x")], .str "A", .str "B"])
        (.str "yes") (some 9) = .ok p) ∨
    createPoll 1 5 (.num 3)
        (.arr [.num 7, .obj [("label", .str "x")], .str "A", .str "B"])
        (.str "yes") (some 9) = .error .invalidQuestion ∨
    createPoll 1 5 (.num 3)
        (.arr [.num 7, .obj [("label", .str "x")], .str "A", .str "B"])
        (.str "yes") (some 9) = .error .insufficientOptions :=
  create_total_on_benign_inputs 1 5 (.num 3)
    (.arr [.num 7, .obj [("label", .str "x")], .str "A", .str "B"])
    (.str "yes") (some 9) (by decide)

/-- Counterexample to C7 as stated: an option object whose `text` field is a
boolean makes the handler throw a `TypeError`, surfaced as the 500
`serverError` — an outcome outside the claimed valid/InvalidQuestion/
InsufficientOptions taxonomy. -/
theorem create_throws_typeerror_on_nonstring_text :
    createPoll 0 0 (.str "Pick your favorite")
      (.arr [.obj [("text", .bool true)], .str "X", .str "Y"])
      (.bool false) none = .error .serverError := rfl

/-! ## C8 — lifecycle invariants of the store -/

/-- Option-level monotonicity: same identity and text, votes not decreased. -/
def optMono (a b : PollOption) : Prop :=
  b.id = a.id ∧ b.text = a.text ∧ a.votes ≤ b.votes

/-- Poll-level monotonicity: same id, options pointwise monotone (which also
forces the same number of options). -/
def pollMono (p q : Poll) : Prop :=
  q.id = p.id ∧ List.Forall₂ optMono p.options q.options

theorem optMono_refl (o : PollOption) : optMono o o :=
  ⟨rfl, rfl, le_refl _⟩

theorem pollMono_refl (p : Poll) : pollMono p p :=
  ⟨rfl, List.forall₂_same.mpr (fun o _ => optMono_refl o)⟩

theorem forall₂_pollMono_refl (s : List Poll) : List.Forall₂ pollMono s s :=
  List.forall₂_same.mpr (fun p _ => pollMono_refl p)

theorem pollMono_applyVote (ids : List JsVal) (p : Poll) :
    pollMono p (applyVote ids p) := by
  refine ⟨rfl, ?_⟩
  show List.Forall₂ optMono p.options (p.options.map (bumpOption ids))
  refine List.forall₂_map_right_iff.mpr (List.forall₂_same.mpr ?_)
  intro o _
  refine ⟨rfl, rfl, ?_⟩
  by_cases h : idRequested ids o.id = true <;> simp [bumpOption, h]

/-- States of the store reachable from the empty collection through the
API's operations. -/
inductive Reachable : List Poll → Prop where
  | empty : Reachable []
  | create (now : Int) (question options multipleChoice : JsVal)
      (closesAt : Option Int) {s : List Poll} :
      Reachable s →
      Reachable (createOp now question options multipleChoice closesAt s).2
  | vote (now : Int) (pid : Nat) (optionIds : JsVal) {s : List Poll} :
      Reachable s → Reachable (voteOp now pid optionIds s).2
  | list (q : Option String) {s : List Poll} :
      Reachable s → Reachable (listOp q s).2
  | get (pid : Nat) {s : List Poll} :
      Reachable s → Reachable (getOp pid s).2

theorem listOp_snd (q : Option String) (s : List Poll) : (listOp q s).2 = s :=
  rfl

theorem getOp_snd (pid : Nat) (s : List Poll) : (getOp pid s).2 = s := by
  unfold getOp
  split <;> rfl

theorem createPoll_ok_shape (pid : Nat) (now : Int)
    (question options multipleChoice : JsVal) (closesAt : Option Int)
    (p : Poll)
    (h : createPoll pid now question options multipleChoice closesAt = .ok p) :
    p.id = pid ∧ 2 ≤ p.options.length := by
  unfold createPoll at h
  cases hn : normalizeOptions (coerceOptions options) with
  | error e =>
    rw [hn] at h
    exact Except.noConfusion h
  | ok norm =>
    rw [hn] at h
    by_cases h5 : (jsTrim (coerceQuestion question)).length < 5
    · simp [h5] at h
    · by_cases h2 : norm.length < 2
      · simp [h5, h2] at h
      · simp only [h5, h2, if_false, ite_false, if_neg] at h
        have hp := Except.ok.inj h
        rw [← hp]
        exact ⟨rfl, by rw [mkOptions_length]; omega⟩

theorem vote_ok_inv (now : Int) (p p2 : Poll) (optionIds : JsVal)
    (hv : vote now p optionIds = .ok p2) :
    ∃ ids, optionIds = JsVal.arr ids ∧ p2 = applyVote ids p := by
  unfold vote at hv
  cases optionIds with
  | arr ids =>
    by_cases h1 : ids.length < 1
    · simp [h1] at hv
    · by_cases h2 : isClosed now p = true
      · simp [h1, h2] at hv
      · by_cases h3 : (!p.multipleChoice && decide (ids.length > 1)) = true
        · simp [h1, h2, h3] at hv
        · refine ⟨ids, rfl, ?_⟩
          simp only [h1, h2, h3, if_false, ite_false, if_neg,
            Bool.false_eq_true] at hv
          exact (Except.ok.inj hv).symm
  | str t => exact absurd hv (by simp)
  | num n => exact absurd hv (by simp)
  | bool b => exact absurd hv (by simp)
  | null => exact absurd hv (by simp)
  | undef => exact absurd hv (by simp)
  | obj fs => exact absurd hv (by simp)

/-- The vote handler either leaves the store untouched or replaces each poll
carrying the requested id by the updated document it computed from the first
such poll. -/
theorem voteOp_snd_cases (now : Int) (pid : Nat) (optionIds : JsVal)
    (s : List Poll) :
    (voteOp now pid optionIds s).2 = s ∨
    ∃ ids p, s.find? (fun q => q.id == pid) = some p ∧
      optionIds = JsVal.arr ids ∧
      (voteOp now pid optionIds s).2 =
        s.map (fun q => if q.id == pid then applyVote ids p else q) := by
  by_cases hm : requestMalformed optionIds = true
  · left
    unfold voteOp
    rw [if_pos hm]
  · cases hf : s.find? (fun q => q.id == pid) with
    | none =>
      left
      unfold voteOp
      rw [if_neg hm, hf]
    | some p =>
      have hstep : voteOp now pid optionIds s =
          match vote now p optionIds with
          | .error e => (.error e, s)
          | .ok p2 => (.ok p2, s.map (fun q => if q.id == pid then p2 else q)) := by
        unfold voteOp
        rw [if_neg hm, hf]
      rw [hstep]
      cases hv : vote now p optionIds with
      | error e =>
        left
        rfl
      | ok p2 =>
        obtain ⟨ids, hids, hp2⟩ := vote_ok_inv now p p2 optionIds hv
        right
        refine ⟨ids, p, rfl, hids, ?_⟩
        rw [hp2]

/-- The two structural invariants maintained along every reachable run:
every poll keeps at least 2 options, and the poll stored at position `k`
carries id `k` (fresh ObjectIds are unique). -/
theorem reachable_storeInv (s : List Poll) (hs : Reachable s) :
    (∀ p ∈ s, 2 ≤ p.options.length) ∧
    (∀ k, (h : k < s.length) → s[k].id = k) := by
  induction hs with
  | empty =>
    exact ⟨fun p hp => absurd hp (List.not_mem_nil p),
      fun k h => absurd h (by simp)⟩
  | create now question options multipleChoice closesAt _ ih =>
    rename_i s2 _
    unfold createOp
    cases hc : createPoll s2.length now question options multipleChoice closesAt with
    | error e => exact ih
    | ok p =>
      obtain ⟨hid, hlen⟩ := createPoll_ok_shape _ _ _ _ _ _ _ hc
      constructor
      · intro q hq
        rcases List.mem_append.mp hq with hq | hq
        · exact ih.1 q hq
        · rw [List.mem_singleton.mp hq]
          exact hlen
      · intro k h
        by_cases hk : k < s2.length
        · rw [List.getElem_append_left hk]
          exact ih.2 k hk
        · have hk2 : k = s2.length := by
            have h2 := h
            simp only [List.length_append, List.length_singleton] at h2
            omega
          rw [List.getElem_concat_length s2 p k hk2, hid, hk2]
  | vote now pid optionIds _ ih =>
    rename_i s2 _
    rcases voteOp_snd_cases now pid optionIds s2 with heq | ⟨ids, p, hf, _, heq⟩
    · rw [heq]
      exact ih
    · rw [heq]
      have hpid : p.id = pid :=
        eq_of_beq (List.find?_some (p := fun q : Poll => q.id == pid) hf)
      have hpmem : p ∈ s2 := List.mem_of_find?_eq_some hf
      constructor
      · intro q hq
        obtain ⟨q0, hq0, rfl⟩ := List.mem_map.mp hq
        by_cases hq2 : (q0.id == pid) = true
        · rw [if_pos hq2]
          show 2 ≤ (p.options.map (bumpOption ids)).length
          rw [List.length_map]
          exact ih.1 p hpmem
        · rw [if_neg (by simpa using hq2)]
          exact ih.1 q0 hq0
      · intro k h
        have hk : k < s2.length := by simpa using h
        rw [List.getElem_map]
        split
        case isTrue hq2 =>
          show (applyVote ids p).id = k
          have hap : (applyVote ids p).id = p.id := rfl
          rw [hap, hpid, ← eq_of_beq hq2]
          exact ih.2 k hk
        case isFalse hq2 =>
          exact ih.2 k hk
  | list q _ ih =>
    rename_i s2 _
    rw [listOp_snd]
    exact ih
  | get pid _ ih =>
    rename_i s2 _
    rw [getOp_snd]
    exact ih

theorem reachable_id_injective (s : List Poll) (hs : Reachable s) :
    ∀ a ∈ s, ∀ b ∈ s, a.id = b.id → a = b := by
  intro a ha b hb hab
  obtain ⟨j, hj, haj⟩ := List.mem_iff_getElem.mp ha
  obtain ⟨k, hk, hbk⟩ := List.mem_iff_getElem.mp hb
  have hids := (reachable_storeInv s hs).2
  have h1 : a.id = j := by
    rw [← haj]
    exact hids j hj
  have h2 : b.id = k := by
    rw [← hbk]
    exact hids k hk
  have hjk : j = k := by rw [← h1, ← h2, hab]
  rw [← haj, ← hbk]
  subst hjk
  rfl

/-- C8.  Every reachable store satisfies the lifetime invariants and every
operation preserves them: all polls keep at least 2 options; creation either
rejects (store untouched) or appends one new well-formed poll, leaving
existing polls exactly as they were; voting (accepting or rejecting) relates
the old and the new store pointwise by `pollMono` — same poll ids, same
option ids, texts and count, votes never decreased; listing and fetching
never modify the store. -/
theorem ops_preserve_invariants (s : List Poll) (hs : Reachable s) :
    (∀ p ∈ s, 2 ≤ p.options.length) ∧
    (∀ now question options multipleChoice closesAt,
      (createOp now question options multipleChoice closesAt s).2 = s ∨
      ∃ p2,
        (createOp now question options multipleChoice closesAt s).2 = s ++ [p2] ∧
        2 ≤ p2.options.length) ∧
    (∀ now pid optionIds,
      List.Forall₂ pollMono s (voteOp now pid optionIds s).2) ∧
    (∀ q, (listOp q s).2 = s) ∧
    (∀ pid, (getOp pid s).2 = s) := by
  refine ⟨(reachable_storeInv s hs).1, ?_, ?_, fun q => listOp_snd q s,
    fun pid => getOp_snd pid s⟩
  · intro now question options multipleChoice closesAt
    unfold createOp
    cases hc : createPoll s.length now question options multipleChoice closesAt with
    | error e => exact Or.inl rfl
    | ok p =>
      exact Or.inr ⟨p, rfl, (createPoll_ok_shape _ _ _ _ _ _ _ hc).2⟩
  · intro now pid optionIds
    rcases voteOp_snd_cases now pid optionIds s with heq | ⟨ids, p, hf, _, heq⟩
    · rw [heq]
      exact forall₂_pollMono_refl s
    · rw [heq]
      have hpid : p.id = pid :=
        eq_of_beq (List.find?_some (p := fun q : Poll => q.id == pid) hf)
      have hpmem : p ∈ s := List.mem_of_find?_eq_some hf
      refine List.forall₂_map_right_iff.mpr (List.forall₂_same.mpr ?_)
      intro q hq
      by_cases hq2 : (q.id == pid) = true
      · rw [if_pos hq2]
        have hqp : q = p :=
          reachable_id_injective s hs q hq p hpmem (by rw [eq_of_beq hq2, hpid])
        subst hqp
        exact pollMono_applyVote ids q
      · rw [if_neg (by simpa using hq2)]
        exact pollMono_refl q

/-- Witness for C8: the store obtained by one successful creation is
reachable and its poll has at least two options. -/
theorem ops_preserve_invariants_witness :
    2 ≤ (Poll.mk 0 "Hello?"
      [PollOption.mk "i" "A" 0, PollOption.mk "ii" "B" 0]
      false 0 none).options.length :=
  (ops_preserve_invariants
    ((createOp 0 (.str "Hello?") (.arr [.str "A", .str "B"]) .undef none []).2)
    (Reachable.create 0 (.str "Hello?") (.arr [.str "A", .str "B"]) .undef none
      Reachable.empty)).1
    (Poll.mk 0 "Hello?"
      [PollOption.mk "i" "A" 0, PollOption.mk "ii" "B" 0]
      false 0 none)
    (by decide)

/-! ## C9 — the list filter is a regex, not a literal substring -/

theorem patToks_no_meta (pat : String) (h : noRegexMeta pat = true) :
    (patToks pat).map lowerTok = (lowerChars pat).map RTok.lit := by
  unfold patToks lowerChars
  rw [List.map_map, List.map_map]
  apply List.map_congr_left
  intro c hc
  have hp := List.all_eq_true.mp h c hc
  have hdot : (c == '.') = false := by
    cases hcc : (c == '.') with
    | false => rfl
    | true =>
      rw [hcc] at hp
      simp at hp
  simp [Function.comp, hdot, lowerTok]

theorem matchHere_lits (pat s : List Char) :
    matchHere (pat.map RTok.lit) s = true ↔ pat <+: s := by
  induction pat generalizing s with
  | nil => simp [matchHere]
  | cons c cs ih =>
    cases s with
    | nil => simp [matchHere]
    | cons d ds => simp [matchHere, tokMatch, ih, List.cons_prefix_cons]

theorem searchToks_lits (pat s : List Char) :
    searchToks (pat.map RTok.lit) s = true ↔ pat <:+: s := by
  induction s with
  | nil => simp [searchToks, matchHere_lits]
  | cons c cs ih => simp [searchToks, matchHere_lits, ih, List.infix_cons_iff]

/-- On metacharacter-free patterns the modelled `$regex` search coincides
with case-insensitive literal substring containment. -/
theorem regexSearchI_no_meta (pat hay : String) (h : noRegexMeta pat = true) :
    (regexSearchI pat hay = true) ↔ containsCI hay pat := by
  unfold regexSearchI containsCI
  rw [patToks_no_meta pat h]
  exact searchToks_lits _ _

/-- C9 (amended).  The handler interprets the (trimmed, non-empty) filter as
a case-insensitive regular expression, not a literal substring.  For filter
strings that are trim-stable, non-empty and free of regex metacharacters the
two notions coincide: listing returns exactly the polls whose question
contains the filter as a case-insensitive substring, ordered by `createdAt`
descending; with no filter it returns all polls in that order. -/
theorem list_filter_substring_when_no_meta (q : String) (store : List Poll)
    (hmeta : noRegexMeta q = true) (htrim : jsTrim q = q) (hne : q ≠ "") :
    (∀ p, p ∈ (listOp (some q) store).1 ↔
      (p ∈ store ∧ containsCI p.question q)) ∧
    List.Sorted laterFirst (listOp (some q) store).1 ∧
    (∀ p, p ∈ (listOp none store).1 ↔ p ∈ store) ∧
    List.Sorted laterFirst (listOp none store).1 := by
  have hq : listQuery (some q) = q := htrim
  have hcond : ¬ ((listQuery (some q) == "") = true) := by
    rw [hq]
    simp [hne]
  refine ⟨?_, ?_, ?_, ?_⟩
  · intro p
    show p ∈ listResult (some q) store ↔ _
    unfold listResult
    rw [if_neg hcond, (List.perm_insertionSort laterFirst _).mem_iff,
      List.mem_filter, hq]
    exact and_congr_right (fun _ => regexSearchI_no_meta q p.question hmeta)
  · show List.Sorted laterFirst (listResult (some q) store)
    unfold listResult
    rw [if_neg hcond]
    exact List.sorted_insertionSort laterFirst _
  · intro p
    show p ∈ listResult none store ↔ _
    unfold listResult
    rw [if_pos (show (listQuery none == "") = true from rfl),
      (List.perm_insertionSort laterFirst _).mem_iff]
  · show List.Sorted laterFirst (listResult none store)
    unfold listResult
    rw [if_pos (show (listQuery none == "") = true from rfl)]
    exact List.sorted_insertionSort laterFirst _

/-- Witness for C9 (amended): filtering a concrete two-poll store with
`q = "java"` returns exactly the poll whose question contains it. -/
theorem list_filter_substring_when_no_meta_witness :
    ({ id := 1, question := "Best Java book?",
       options := [{ id := "i", text := "A", votes := 0 },
                   { id := "ii", text := "B", votes := 0 }],
       multipleChoice := false, createdAt := 20, closesAt := none } : Poll) ∈
      (listOp (some "java")
        [{ id := 0, question := "Favorite JS framework?",
           options := [{ id := "i", text := "A", votes := 0 },
                       { id := "ii", text := "B", votes := 0 }],
           multipleChoice := false, createdAt := 10, closesAt := none },
         { id := 1, question := "Best Java book?",
           options := [{ id := "i", text := "A", votes := 0 },
                       { id := "ii", text := "B", votes := 0 }],
           multipleChoice := false, createdAt := 20, closesAt := none }]).1 ↔
    (({ id := 1, question := "Best Java book?",
        options := [{ id := "i", text := "A", votes := 0 },
                    { id := "ii", text := "B", votes := 0 }],
        multipleChoice := false, createdAt := 20, closesAt := none } : Poll) ∈
      [{ id := 0, question := "Favorite JS framework?",
         options := [{ id := "i", text := "A", votes := 0 },
                     { id := "ii", text := "B", votes := 0 }],
         multipleChoice := false, createdAt := 10, closesAt := none },
       ({ id := 1, question := "Best Java book?",
          options := [{ id := "i", text := "A", votes := 0 },
                      { id := "ii", text := "B", votes := 0 }],
          multipleChoice := false, createdAt := 20, closesAt := none } : Poll)] ∧
      containsCI "Best Java book?" "java") :=
  (list_filter_substring_when_no_meta "java"
    [{ id := 0, question := "Favorite JS framework?",
       options := [{ id := "i", text := "A", votes := 0 },
                   { id := "ii", text := "B", votes := 0 }],
       multipleChoice := false, createdAt := 10, closesAt := none },
     { id := 1, question := "Best Java book?",
       options := [{ id := "i", text := "A", votes := 0 },
                   { id := "ii", text := "B", votes := 0 }],
       multipleChoice := false, createdAt := 20, closesAt := none }]
    (by decide) (by decide) (by decide)).1
    { id := 1, question := "Best Java book?",
      options := [{ id := "i", text := "A", votes := 0 },
                  { id := "ii", text := "B", votes := 0 }],
      multipleChoice := false, createdAt := 20, closesAt := none }

/-- Counterexample to C9 as stated: with filter `"a.c"` the handler returns
the poll whose question is `"abcde"` (the `.` matches `b`), although `"a.c"`
is not a case-insensitive literal substring of `"abcde"` — the filter string
is interpreted as a regular expression, not taken literally. -/
theorem list_filter_is_regex_not_literal :
    (listOp (some "a.c")
      [{ id := 0, question := "abcde",
         options := [{ id := "i", text := "A", votes := 0 },
                     { id := "ii", text := "B", votes := 0 }],
         multipleChoice := false, createdAt := 0, closesAt := none }]).1 =
      [{ id := 0, question := "abcde",
         options := [{ id := "i", text := "A", votes := 0 },
                     { id := "ii", text := "B", votes := 0 }],
         multipleChoice := false, createdAt := 0, closesAt := none }] ∧
    ¬ containsCI "abcde" "a.c" := by
  exact ⟨by decide, by decide⟩

end PollApp